import Mathlib

/-!
Verification of the asynchronous video-transcoding job subsystem of the
drone-video-analysis-server repository.

The definitions below are a shallow embedding of the Python sources:
  * `app/services/video_processor.py` — the Celery job runner
    (`update_transcoding_status`, `get_active_task_for_recording`,
    `get_task_status`, `check_task_exists`, `process_recording_task`,
    `submit_processing_job`);
  * `app/utils/video.py` — the prober/transcoder
    (`get_video_info`, `create_hls_playlist`, `process_video_for_streaming`);
  * `app/routers/recordings.py` — the status-poll endpoint
    (`get_recording_processing_status`).

External effects (filesystem, ffmpeg, S3, the Celery broker, the database
session) are modelled as explicit environment records.  A Python function
that catches all exceptions is embedded as a total Lean function; a Python
function that may raise is embedded with an `Except` result.  Python dicts
holding recording metadata are association lists with insertion-order
`update` semantics.
-/

namespace DroneVideo

/-! ## Recording metadata model

`recording_metadata` is a JSON column holding a string-keyed map.  The values
the job subsystem writes are strings (statuses, timestamps, error text),
booleans (`processed`), and the prober's `video_info` record. -/

/-- Technical properties of a source video, as assembled by `get_video_info`
in `app/utils/video.py` (width, height, duration, bitrate, format, codec,
byte size).  Numeric fields are modelled as `Int`; no claim depends on their
arithmetic. -/
structure VideoInfo where
  width : Int
  height : Int
  duration : Int
  bitrate : Int
  format : String
  codec : String
  size : Int
deriving Repr, DecidableEq

/-- A value stored in the recording-metadata map. -/
inductive MetaVal where
  | str (s : String)
  | flag (b : Bool)
  | vinfo (v : Option VideoInfo)
deriving Repr, DecidableEq

/-- The metadata map: a Python dict with string keys, modelled as an
association list in insertion order. -/
abbrev Metadata := List (String × MetaVal)

/-- Dict lookup `m.get(k)` / `m[k]`. -/
def getKey (m : Metadata) (k : String) : Option MetaVal :=
  (List.find? (fun p => p.1 == k) m).map (fun p => p.2)

/-- Dict write `m[k] = v`: replaces the value at an existing key in place,
otherwise appends at the end — Python's insertion-order update semantics. -/
def setKey : Metadata → String → MetaVal → Metadata
  | [], k, v => [(k, v)]
  | p :: rest, k, v => if p.1 == k then (k, v) :: rest else p :: setKey rest k v

/-- Membership test `k in m`. -/
def hasKey (m : Metadata) (k : String) : Bool :=
  List.any m (fun p => p.1 == k)

/-! ## Recording rows and the database session -/

/-- The columns of a `Recording` row that the job subsystem reads or
writes (`app/models.py`). -/
structure Recording where
  id : Int
  environment : String
  file_path : String
  s3_path : Option String
  recording_metadata : Option Metadata
deriving Repr, DecidableEq

/-- The database, as visible to the job subsystem: the recording rows. -/
abbrev Db := List Recording

/-- Query `db.query(Recording).filter(Recording.id == rid).first()`. -/
def findRecording (db : Db) (rid : Int) : Option Recording :=
  List.find? (fun r => r.id == rid) db

/-- Replace the metadata of row `rid`. -/
def writeMetadata (db : Db) (rid : Int) (m : Metadata) : Db :=
  List.map (fun r => if r.id == rid then { r with recording_metadata := some m } else r) db

/-- Metadata of row `rid`, with Python's `recording.recording_metadata or {}`
defaulting. -/
def metadataOf (db : Db) (rid : Int) : Metadata :=
  match findRecording db rid with
  | some r => r.recording_metadata.getD []
  | none => []

/-- Failure modes of a database session: whether reading the metadata column
raises, and whether `db.commit()` raises.  `true` means the operation
succeeds. -/
structure DbEnv where
  metadataReadOk : Bool
  commitOk : Bool
deriving Repr, DecidableEq

/-- The fully reliable session. -/
def DbEnv.reliable : DbEnv := { metadataReadOk := true, commitOk := true }

/-- Python truthiness of the optional `error_message` argument: `None` and
the empty string are falsy. -/
def errTruthy : Option String → Bool
  | none => false
  | some s => !(s == "")

/-- Embedding of `update_transcoding_status` from
`app/services/video_processor.py` (lines 75–97).  The whole body is wrapped
in `try/except` with `db.rollback()` in the handler, so the embedding is a
total function returning the resulting database: a missing row returns
early, and a raised read or commit leaves the database rolled back
(unchanged).  `now` stands for `datetime.now().isoformat()`. -/
def update_transcoding_status (env : DbEnv) (db : Db) (recording_id : Int)
    (status : String) (error_message : Option String) (now : String) : Db :=
  match findRecording db recording_id with
  | none => db
  | some r =>
    if !env.metadataReadOk then db
    else
      let m0 := r.recording_metadata.getD []
      let m1 := setKey (setKey m0 "transcoding_status" (MetaVal.str status))
        "transcoding_completed_at" (MetaVal.str now)
      let m2 := if errTruthy error_message then
          setKey m1 "transcoding_error" (MetaVal.str (error_message.getD ""))
        else m1
      if env.commitOk then writeMetadata db recording_id m2 else db

/-! ## Path helpers

`os.path.basename`, `os.path.join` and lexical path normalization, modelled
on character lists so that the path-traversal claims can be settled. -/

/-- Python's `s.startswith(pre)`, computed on the character lists. -/
def strStartsWith (s pre : String) : Bool :=
  List.isPrefixOf pre.data s.data

/-- Python's `s[n:]`, computed on the character lists. -/
def strDrop (s : String) (n : Nat) : String :=
  String.mk (List.drop n s.data)

/-- Characters after the last `'/'`:  `os.path.basename`.  The accumulator
holds the characters of the current (last) component. -/
def basenameChars : List Char → List Char → List Char
  | acc, [] => acc
  | acc, c :: rest =>
    if c = '/' then basenameChars [] rest else basenameChars (acc ++ [c]) rest

/-- Embedding of `os.path.basename`. -/
def basename (p : String) : String :=
  String.mk (basenameChars [] p.data)

/-- Embedding of `os.path.join(a, b)` as used by the job subsystem: if `b`
is absolute it wins; otherwise the parts are joined with a single slash. -/
def osPathJoin (a b : String) : String :=
  if b.data.head? = some '/' then b
  else if a.data.getLast? = some '/' then a ++ b
  else a ++ "/" ++ b

/-- Split a character list at every `'/'` into path components. -/
def splitSlash : List Char → List (List Char)
  | [] => [[]]
  | c :: rest =>
    let r := splitSlash rest
    if c = '/' then [] :: r
    else
      match r with
      | [] => [[c]]
      | h :: t => (c :: h) :: t

/-- Lexical normalization of an absolute path's components, as
`os.path.normpath` does: empty and `.` components vanish, `..` pops the
previous component (and at the root pops nothing). -/
def normStack : List (List Char) → List (List Char) → List (List Char)
  | acc, [] => acc
  | acc, c :: rest =>
    if c = ([] : List Char) then normStack acc rest
    else if c = ['.'] then normStack acc rest
    else if c = ['.', '.'] then normStack acc.dropLast rest
    else normStack (acc ++ [c]) rest

/-- Whether an absolute path, once lexically normalized, lies at or under
the `/recordings` root: its first normalized component is `recordings`. -/
def insideRecordingsRoot (p : String) : Bool :=
  match normStack [] (splitSlash p.data) with
  | [] => false
  | c :: _ => c = "recordings".data

/-! ## Prober/transcoder: `app/utils/video.py`

The external world seen by the video utilities: which paths exist, which
are readable, what `ffmpeg.probe` returns (with `none` for a raised probe),
file sizes, directory writability, and whether the ffmpeg encode subprocess
exits zero. -/

/-- One entry of `probe['streams']`. -/
structure StreamInfo where
  codec_type : String
  width : Int
  height : Int
  codec_name : String
deriving Repr, DecidableEq

/-- The result of a successful `ffmpeg.probe` call: the streams and the
`format` section fields read by `get_video_info`. -/
structure ProbeResult where
  streams : List StreamInfo
  formatDuration : Int
  formatBitRate : Int
  formatName : String
deriving Repr, DecidableEq

/-- The filesystem and external-tool environment of the video utilities. -/
structure VideoEnv where
  /-- Paths for which `os.path.exists` is true. -/
  files : List String
  /-- Paths for which `os.access(p, os.R_OK)` is true. -/
  readable : List String
  /-- `ffmpeg.probe p`; `none` models a raised `ffmpeg.Error`. -/
  probe : String → Option ProbeResult
  /-- `os.path.getsize`. -/
  fileSize : String → Int
  /-- Whether `ensure_directory` finds/creates the directory writable. -/
  dirWritable : String → Bool
  /-- Whether the ffmpeg HLS-encode subprocess exits 0 and writes the
  playlist. -/
  encodeOk : Bool
  /-- Captured stderr of a failed encode. -/
  encodeStderr : String

/-- Embedding of `get_video_info` from `app/utils/video.py` (lines 92–124).
Every exception is caught and `{}` returned; `none` here models that empty
dict, `some` the seven-field info dict. -/
def get_video_info (env : VideoEnv) (file_path : String) : Option VideoInfo :=
  if !(List.contains env.files file_path) then none
  else
    match env.probe file_path with
    | none => none
    | some pr =>
      match List.find? (fun s => s.codec_type == "video") pr.streams with
      | none => none
      | some v =>
        some { width := v.width, height := v.height,
               duration := pr.formatDuration, bitrate := pr.formatBitRate,
               format := pr.formatName, codec := v.codec_name,
               size := env.fileSize file_path }

/-- Embedding of `create_hls_playlist` from `app/utils/video.py` (lines
17–90).  The result is the raised-or-returned playlist path, the filesystem
after the call, and how many times the external encoder subprocess ran. -/
def create_hls_playlist (env : VideoEnv) (input_file output_dir : String) :
    Except String String × List String × Nat :=
  let playlist_path := osPathJoin output_dir "playlist.m3u8"
  if !(env.dirWritable output_dir) then
    (Except.error ("Directory is not writable: " ++ output_dir), env.files, 0)
  else if !(List.contains env.files input_file) then
    (Except.error ("Input file not found: " ++ input_file), env.files, 0)
  else if !(List.contains env.readable input_file) then
    (Except.error ("Input file is not readable: " ++ input_file), env.files, 0)
  else
    match env.probe input_file with
    | none => (Except.error ("ffmpeg probe raised on: " ++ input_file), env.files, 0)
    | some pr =>
      match List.find? (fun s => s.codec_type == "video") pr.streams with
      | none =>
        (Except.error ("No video stream found in file: " ++ input_file), env.files, 0)
      | some _ =>
        if env.encodeOk then
          (Except.ok playlist_path, playlist_path :: env.files, 1)
        else
          (Except.error ("ffmpeg conversion failed: " ++ env.encodeStderr), env.files, 1)

/-- Embedding of `process_video_for_streaming` from `app/utils/video.py`
(lines 149–186): returns the raised-or-returned `(playlist_path,
video_info)` pair, the filesystem after the call, and the number of encoder
invocations.  The first branch is the idempotence check: an existing
playlist is returned without encoding. -/
def process_video_for_streaming (env : VideoEnv) (input_file output_dir : String) :
    Except String (String × Option VideoInfo) × List String × Nat :=
  let playlist_path := osPathJoin output_dir "playlist.m3u8"
  if List.contains env.files playlist_path then
    (Except.ok (playlist_path, get_video_info env input_file), env.files, 0)
  else if !(List.contains env.files input_file) then
    (Except.error ("Input file not found: " ++ input_file), env.files, 0)
  else if !(List.contains env.readable input_file) then
    (Except.error ("Input file is not readable: " ++ input_file), env.files, 0)
  else
    match get_video_info env input_file with
    | none =>
      (Except.error ("Could not get video information from: " ++ input_file), env.files, 0)
    | some info =>
      match create_hls_playlist env input_file output_dir with
      | (Except.error e, fs, n) => (Except.error e, fs, n)
      | (Except.ok p, fs, n) => (Except.ok (p, some info), fs, n)

/-! ## Job tracker: `app/services/video_processor.py`

The Celery broker's view of tasks: each task has a registered name, the
positional arguments, and an opaque task id.  `inspectOk` models whether
`celery_app.control.inspect()` succeeds — every exception in
`get_active_task_for_recording` is caught and turned into `None`. -/

/-- One task as reported by `inspect().active()` / `inspect().reserved()`. -/
structure TaskEntry where
  name : String
  args : List Int
  id : String
deriving Repr, DecidableEq

/-- The broker's task registry at the moment of a call. -/
structure CeleryState where
  inspectOk : Bool
  active : List TaskEntry
  reserved : List TaskEntry

/-- The per-task test inside both loops of `get_active_task_for_recording`:
right name, non-empty args, first argument equal to the recording id. -/
def taskMatches (recording_id : Int) (t : TaskEntry) : Bool :=
  t.name == "app.services.video_processor.process_recording_task" &&
  !(List.isEmpty t.args) && List.headD t.args 0 == recording_id

/-- Embedding of `get_active_task_for_recording` (lines 99–139): scan
active tasks first, then reserved ones; any inspection error yields
`none`. -/
def get_active_task_for_recording (st : CeleryState) (recording_id : Int) :
    Option String :=
  if !st.inspectOk then none
  else
    match List.find? (taskMatches recording_id) st.active with
    | some t => some t.id
    | none =>
      match List.find? (taskMatches recording_id) st.reserved with
      | some t => some t.id
      | none => none

/-- The Celery result backend: status and result payload per task id. -/
structure Backend where
  status : String → String
  result : String → String

/-- The status dict built by `get_task_status` (lines 141–168). -/
structure TaskStatusInfo where
  task_id : String
  status : String
  error : Option String
deriving Repr, DecidableEq

/-- Embedding of `get_task_status`: the backend status, with the result
string attached as `error` when the task failed. -/
def get_task_status (b : Backend) (task_id : String) : TaskStatusInfo :=
  { task_id := task_id, status := b.status task_id,
    error := if b.status task_id == "FAILURE" then some (b.result task_id) else none }

/-- Embedding of `check_task_exists` (lines 170–188). -/
def check_task_exists (st : CeleryState) (b : Backend) (recording_id : Int) :
    Option TaskStatusInfo :=
  (get_active_task_for_recording st recording_id).map (get_task_status b)

/-! ## Job runner: `process_recording_task` and `submit_processing_job` -/

/-- Outcome of `download_from_s3(key, dest)` as seen by the task: it
returns `True`, returns `False`, or raises. -/
inductive S3Outcome where
  | ok
  | returnedFalse
  | raised (msg : String)
deriving Repr, DecidableEq

/-- The external world of one `process_recording_task` execution. -/
structure JobEnv where
  venv : VideoEnv
  dbenv : DbEnv
  /-- Outcome of the S3 download per (already `s3://`-stripped) key. -/
  s3 : String → S3Outcome
  /-- `temp_file.name` of the `NamedTemporaryFile`. -/
  tempName : String
  /-- `datetime.now().isoformat()`. -/
  now : String
  /-- Message of the exception raised by the final metadata commit, when
  `dbenv.commitOk` is false. -/
  commitMsg : String

/-- What `process_recording_task` returns: the success dict, or a plain
`return None` after one of the caught-failure paths (including a missing
recording).  Every exception inside the task body is caught, so the
embedding is total — nothing escapes the job-execution boundary. -/
inductive JobResult where
  | success (recording_id : Int) (hls_path : String) (video_info : Option VideoInfo)
  | earlyReturn
deriving Repr, DecidableEq

/-- Python truthiness of the `s3_path` column: `None` and `""` are falsy. -/
def s3Truthy : Option String → Bool
  | none => false
  | some s => !(s == "")

/-- The success tail of `process_recording_task` (lines 288–317): merge the
HLS fields into the metadata and commit; a failed commit rolls back and
records a `failed` status instead. -/
def finishRecording (env : JobEnv) (db : Db) (recording_id : Int) (r : Recording)
    (hls_output_dir : String) (info : Option VideoInfo) : JobResult × Db :=
  let m0 := r.recording_metadata.getD []
  let m := setKey (setKey (setKey (setKey (setKey m0
    "hls_path" (MetaVal.str hls_output_dir))
    "processed" (MetaVal.flag true))
    "transcoding_status" (MetaVal.str "completed"))
    "transcoding_completed_at" (MetaVal.str env.now))
    "video_info" (MetaVal.vinfo info)
  if env.dbenv.commitOk then
    (JobResult.success recording_id hls_output_dir info, writeMetadata db recording_id m)
  else
    (JobResult.earlyReturn,
     update_transcoding_status env.dbenv db recording_id "failed"
       (some ("Database error updating metadata: " ++ env.commitMsg)) env.now)

/-- Embedding of the Celery task `process_recording_task` (lines 190–330).
Each failure of fetch, probe, transcode or commit is caught in the source
and turned into a `failed` status write plus `return`; the recording-id
lookup, the local/S3 branch, the path remapping and the error strings
follow the source line by line. -/
def process_recording_task (env : JobEnv) (db : Db) (recording_id : Int) :
    JobResult × Db :=
  match findRecording db recording_id with
  | none => (JobResult.earlyReturn, db)
  | some r =>
    let hls_output_dir := osPathJoin "/recordings/hls" (toString recording_id)
    if r.environment == "local" then
      let file_path := if strStartsWith r.file_path "/recordings/" then r.file_path
        else osPathJoin "/recordings" (basename r.file_path)
      if !(List.contains env.venv.files file_path) then
        (JobResult.earlyReturn,
         update_transcoding_status env.dbenv db recording_id "failed"
           (some ("File not found at " ++ file_path)) env.now)
      else
        match process_video_for_streaming env.venv file_path hls_output_dir with
        | (Except.error e, _, _) =>
          (JobResult.earlyReturn,
           update_transcoding_status env.dbenv db recording_id "failed"
             (some ("Failed to process video for streaming: " ++ e)) env.now)
        | (Except.ok (_, info), _, _) =>
          finishRecording env db recording_id r hls_output_dir info
    else
      if !(s3Truthy r.s3_path) then
        (JobResult.earlyReturn,
         update_transcoding_status env.dbenv db recording_id "failed"
           (some ("Recording does not have an S3 path: " ++ toString recording_id)) env.now)
      else
        let s3p0 := r.s3_path.getD ""
        let s3p := if strStartsWith s3p0 "s3://" then strDrop s3p0 5 else s3p0
        match env.s3 s3p with
        | S3Outcome.returnedFalse =>
          (JobResult.earlyReturn,
           update_transcoding_status env.dbenv db recording_id "failed"
             (some "Failed to download file from S3") env.now)
        | S3Outcome.raised m =>
          (JobResult.earlyReturn,
           update_transcoding_status env.dbenv db recording_id "failed"
             (some ("S3 download error: " ++ m)) env.now)
        | S3Outcome.ok =>
          match process_video_for_streaming env.venv env.tempName hls_output_dir with
          | (Except.error e, _, _) =>
            (JobResult.earlyReturn,
             update_transcoding_status env.dbenv db recording_id "failed"
               (some ("Failed to process S3 video: " ++ e)) env.now)
          | (Except.ok (_, info), _, _) =>
            finishRecording env db recording_id r hls_output_dir info

/-- The external world of one `submit_processing_job` call. -/
structure SubmitEnv where
  celery : CeleryState
  backend : Backend
  dbenv : DbEnv
  /-- Whether `process_recording_task.delay(...)` succeeds. -/
  brokerOk : Bool
  /-- Message of the exception when the enqueue raises. -/
  brokerError : String
  /-- Id of the freshly enqueued task when the enqueue succeeds. -/
  freshTaskId : String
  /-- `int(time.time())`. -/
  nowEpoch : Nat
  /-- `datetime.now().isoformat()` for the degraded status write. -/
  now : String

/-- What `submit_processing_job` produces: the returned task id, the
recording ids newly enqueued onto the broker during the call, and the
database after the call. -/
structure SubmitOutcome where
  taskId : String
  enqueued : List Int
  db : Db
deriving Repr, DecidableEq

/-- Embedding of `submit_processing_job` (lines 332–367).  An existing
active/reserved task short-circuits the enqueue; a raised enqueue is caught,
a `failed` status is written directly to the recording metadata, and a
`local-fallback-` task id is returned — the caller never sees the
exception. -/
def submit_processing_job (env : SubmitEnv) (db : Db) (recording_id : Int) :
    SubmitOutcome :=
  match check_task_exists env.celery env.backend recording_id with
  | some st => { taskId := st.task_id, enqueued := [], db := db }
  | none =>
    if env.brokerOk then
      { taskId := env.freshTaskId, enqueued := [recording_id], db := db }
    else
      { taskId := "local-fallback-" ++ toString recording_id ++ "-" ++ toString env.nowEpoch,
        enqueued := [],
        db := update_transcoding_status env.dbenv db recording_id "failed"
          (some ("Redis connection error: " ++ env.brokerError)) env.now }

/-! ## Status-poll endpoint: `app/routers/recordings.py`,
`get_recording_processing_status` (lines 1192–1247), after the
authentication checks the claims assume to have passed. -/

/-- Python truthiness of the metadata column: `None` and `{}` are falsy. -/
def metaTruthy : Option Metadata → Bool
  | none => false
  | some m => !(List.isEmpty m)

/-- String value of a metadata key, with `metadata.get(k, "")` defaulting;
the job subsystem only ever stores strings under the keys this is used
with. -/
def getStr (m : Metadata) (k : String) : String :=
  match getKey m k with
  | some (MetaVal.str s) => s
  | _ => ""

/-- The `status_map` dict translating Celery task states (lines
1198–1205 of the endpoint body). -/
def celeryStatusMap (s : String) : String :=
  if s == "PENDING" then "queued"
  else if s == "STARTED" then "processing"
  else if s == "PROGRESS" then "processing"
  else if s == "SUCCESS" then "completed"
  else if s == "FAILURE" then "failed"
  else if s == "REVOKED" then "cancelled"
  else "unknown"

/-- The fields of the endpoint's JSON response that the claims mention. -/
structure ProcStatusResponse where
  recording_id : Int
  status : String
  error : Option String
  can_retry : Option Bool
  task_id : Option String
deriving Repr, DecidableEq

/-- Embedding of the post-authentication body of
`get_recording_processing_status`: the ready-HLS check, the live-task
branch with the `status_map` translation, the stored-metadata branch (which
adds `can_retry: True` to the response when reporting a stored failure),
and the `not_processed` fallback.  `fs` is the set of existing paths and
`task` the result of `check_task_exists` (whose own errors already yield
`none`). -/
def get_recording_processing_status (fs : List String)
    (task : Option TaskStatusInfo) (recording_id : Int) (meta : Option Metadata) :
    ProcStatusResponse :=
  let m := meta.getD []
  if metaTruthy meta && hasKey m "hls_path" &&
      List.contains fs (osPathJoin (getStr m "hls_path") "playlist.m3u8") &&
      (getKey m "transcoding_status" == some (MetaVal.str "completed") ||
       getKey m "processed" == some (MetaVal.flag true)) then
    { recording_id := recording_id, status := "ready",
      error := none, can_retry := none, task_id := none }
  else
    match task with
    | some t =>
      let client_status := celeryStatusMap t.status
      { recording_id := recording_id, status := client_status,
        error := if client_status == "failed" then t.error else none,
        can_retry := none, task_id := some t.task_id }
    | none =>
      if metaTruthy meta && hasKey m "transcoding_status" then
        let status := getStr m "transcoding_status"
        if status == "failed" && hasKey m "transcoding_error" then
          { recording_id := recording_id, status := status,
            error := some (getStr m "transcoding_error"),
            can_retry := some true, task_id := none }
        else
          { recording_id := recording_id, status := status,
            error := none, can_retry := none, task_id := none }
      else
        { recording_id := recording_id, status := "not_processed",
          error := none, can_retry := none, task_id := none }

/-! ## Basic lemmas about the metadata map and the database -/

theorem getKey_setKey_self (m : Metadata) (k : String) (v : MetaVal) :
    getKey (setKey m k v) k = some v := by
  induction m with
  | nil => simp [setKey, getKey, List.find?]
  | cons a rest ih =>
    by_cases ha : a.1 = k
    · simp [setKey, ha, getKey, List.find?]
    · have ha' : (a.1 == k) = false := by simp [ha]
      simp only [setKey, ha', if_false]
      simpa [getKey, List.find?, ha'] using ih

theorem getKey_setKey_ne (m : Metadata) (k k' : String) (v : MetaVal)
    (h : k' ≠ k) : getKey (setKey m k v) k' = getKey m k' := by
  have hkk : (k == k') = false := by simp; exact fun he => h he.symm
  induction m with
  | nil => simp [setKey, getKey, List.find?, hkk]
  | cons a rest ih =>
    by_cases ha : a.1 = k
    · have ha2 : (a.1 == k') = false := by
        cases hb : a.1 == k'
        · rfl
        · exact absurd ((eq_of_beq hb).symm.trans ha) h
      simp [setKey, ha, getKey, List.find?, hkk, ha2]
    · have ha' : (a.1 == k) = false := by simp [ha]
      simp only [setKey, ha', if_false]
      cases hfa : a.1 == k'
      · simpa [getKey, List.find?, hfa] using ih
      · simp [getKey, List.find?, hfa]

theorem hasKey_setKey_ne (m : Metadata) (k k' : String) (v : MetaVal)
    (h : k' ≠ k) : hasKey (setKey m k v) k' = hasKey m k' := by
  have hkk : (k == k') = false := by simp; exact fun he => h he.symm
  induction m with
  | nil => simp [setKey, hasKey, hkk]
  | cons a rest ih =>
    by_cases ha : a.1 = k
    · have ha2 : (a.1 == k') = false := by
        cases hb : a.1 == k'
        · rfl
        · exact absurd ((eq_of_beq hb).symm.trans ha) h
      simp [setKey, ha, hasKey, hkk, ha2]
    · have ha' : (a.1 == k) = false := by simp [ha]
      have ih' : (List.any (setKey rest k v) fun p => p.1 == k') =
          List.any rest fun p => p.1 == k' := ih
      simp only [setKey, ha', if_false]
      show (List.any (a :: setKey rest k v) fun p => p.1 == k') =
        List.any (a :: rest) fun p => p.1 == k'
      simp only [List.any_cons, ih']

theorem hasKey_setKey_self (m : Metadata) (k : String) (v : MetaVal) :
    hasKey (setKey m k v) k = true := by
  induction m with
  | nil => simp [setKey, hasKey]
  | cons a rest ih =>
    by_cases ha : a.1 = k
    · simp [setKey, ha, hasKey]
    · have ha' : (a.1 == k) = false := by simp [ha]
      have ih' : (List.any (setKey rest k v) fun p => p.1 == k) = true := ih
      simp only [setKey, ha', if_false]
      show (List.any (a :: setKey rest k v) fun p => p.1 == k) = true
      simp only [List.any_cons, ha', ih', Bool.or_true]

theorem findRecording_writeMetadata (db : Db) (rid : Int) (m : Metadata) :
    findRecording (writeMetadata db rid m) rid =
      (findRecording db rid).map (fun r => { r with recording_metadata := some m }) := by
  unfold findRecording writeMetadata
  induction db with
  | nil => simp
  | cons r0 rest ih =>
    by_cases h0 : r0.id = rid
    · simp [List.find?_cons, h0]
    · simp only [List.map_cons, List.find?_cons]
      have h0' : (r0.id == rid) = false := by simp [h0]
      rw [if_neg (by simp [h0])]
      rw [show (r0.id == rid) = false from h0']
      exact ih

theorem metadataOf_writeMetadata (db : Db) (rid : Int) (m : Metadata) (r : Recording)
    (hrec : findRecording db rid = some r) :
    metadataOf (writeMetadata db rid m) rid = m := by
  unfold metadataOf
  rw [findRecording_writeMetadata, hrec]
  rfl

theorem not_true_of_false {b : Bool} (h : b = false) : ¬(b = true) := by
  simp [h]

theorem bnot_true {b : Bool} (h : b = false) : (!b) = true := by
  simp [h]

theorem not_bnot_true {b : Bool} (h : b = true) : ¬((!b) = true) := by
  simp [h]

theorem update_status_metadata_eq (db : Db) (rid : Int) (st : String)
    (msg : Option String) (now : String) (r : Recording)
    (hrec : findRecording db rid = some r) (hmsg : errTruthy msg = true) :
    metadataOf (update_transcoding_status DbEnv.reliable db rid st msg now) rid =
      setKey (setKey (setKey (r.recording_metadata.getD [])
        "transcoding_status" (MetaVal.str st))
        "transcoding_completed_at" (MetaVal.str now))
        "transcoding_error" (MetaVal.str (msg.getD "")) := by
  unfold update_transcoding_status
  rw [hrec]
  simp only [DbEnv.reliable, Bool.not_true, Bool.false_eq_true, if_false, hmsg, if_true]
  exact metadataOf_writeMetadata db rid _ r hrec

theorem update_status_metadata_eq_nomsg (db : Db) (rid : Int) (st : String)
    (msg : Option String) (now : String) (r : Recording)
    (hrec : findRecording db rid = some r) (hmsg : errTruthy msg = false) :
    metadataOf (update_transcoding_status DbEnv.reliable db rid st msg now) rid =
      setKey (setKey (r.recording_metadata.getD [])
        "transcoding_status" (MetaVal.str st))
        "transcoding_completed_at" (MetaVal.str now) := by
  unfold update_transcoding_status
  rw [hrec]
  simp only [DbEnv.reliable, Bool.not_true, Bool.false_eq_true, if_false, hmsg, if_true]
  exact metadataOf_writeMetadata db rid _ r hrec

/-- After a reliable `failed` write with a non-empty message, the status and
error keys of the recording's metadata hold exactly the written values. -/
theorem failed_update_status_keys (db : Db) (rid : Int) (e now : String) (r : Recording)
    (hrec : findRecording db rid = some r) (he : e ≠ "") :
    getKey (metadataOf (update_transcoding_status DbEnv.reliable db rid "failed"
        (some e) now) rid) "transcoding_status" = some (MetaVal.str "failed") ∧
    getKey (metadataOf (update_transcoding_status DbEnv.reliable db rid "failed"
        (some e) now) rid) "transcoding_error" = some (MetaVal.str e) := by
  have hmsg : errTruthy (some e) = true := by
    unfold errTruthy
    simpa using he
  rw [update_status_metadata_eq db rid "failed" (some e) now r hrec hmsg]
  constructor
  · rw [getKey_setKey_ne _ _ _ _ (by decide),
      getKey_setKey_ne _ _ _ _ (by decide),
      getKey_setKey_self]
  · rw [getKey_setKey_self]
    rfl

/-! ## C10 — `update_transcoding_status` never raises and rolls back on error -/

/-- C10: `update_transcoding_status` never propagates an exception to its
caller (its embedding is a total function into the resulting database): a
missing recording id leaves the datastore unchanged, and a raised metadata
read or a raised commit leaves the database rolled back, i.e. unchanged. -/
theorem c10_update_status_total_and_rolls_back (env : DbEnv) (db : Db) (rid : Int)
    (status : String) (msg : Option String) (now : String) :
    (findRecording db rid = none →
      update_transcoding_status env db rid status msg now = db) ∧
    (env.metadataReadOk = false →
      update_transcoding_status env db rid status msg now = db) ∧
    (env.commitOk = false →
      update_transcoding_status env db rid status msg now = db) := by
  refine ⟨fun h => ?_, fun h => ?_, fun h => ?_⟩
  · unfold update_transcoding_status
    rw [h]
  · unfold update_transcoding_status
    cases hrec : findRecording db rid with
    | none => rfl
    | some r => simp [h]
  · unfold update_transcoding_status
    cases hrec : findRecording db rid with
    | none => rfl
    | some r =>
      by_cases hro : env.metadataReadOk
      · simp [hro, h]
      · simp [hro]

/-- Witness for C10 at a concrete input: an absent recording id leaves a
concrete database unchanged. -/
theorem c10_witness :
    update_transcoding_status DbEnv.reliable
      [{ id := 2, environment := "local", file_path := "/recordings/a.mp4",
         s3_path := none, recording_metadata := none }] 1 "failed" (some "boom") "T" =
      [{ id := 2, environment := "local", file_path := "/recordings/a.mp4",
         s3_path := none, recording_metadata := none }] :=
  (c10_update_status_total_and_rolls_back DbEnv.reliable
    [{ id := 2, environment := "local", file_path := "/recordings/a.mp4",
       s3_path := none, recording_metadata := none }] 1 "failed" (some "boom") "T").1
    (by decide)

/-! ## C8 — the status write does not clobber unrelated metadata keys -/

/-- C8: for every call of `update_transcoding_status` on an existing
recording, every metadata key other than `transcoding_status`,
`transcoding_completed_at` and — when a (truthy) error message is given —
`transcoding_error`, holds the same value after the call as before it,
whatever the session's failure behaviour. -/
theorem c8_update_status_frame (env : DbEnv) (db : Db) (rid : Int)
    (status : String) (msg : Option String) (now : String) (r : Recording) (k : String)
    (hrec : findRecording db rid = some r)
    (hk1 : k ≠ "transcoding_status") (hk2 : k ≠ "transcoding_completed_at")
    (hk3 : errTruthy msg = true → k ≠ "transcoding_error") :
    getKey (metadataOf (update_transcoding_status env db rid status msg now) rid) k =
      getKey (r.recording_metadata.getD []) k := by
  have hold : metadataOf db rid = r.recording_metadata.getD [] := by
    unfold metadataOf
    rw [hrec]
  unfold update_transcoding_status
  rw [hrec]
  by_cases hro : env.metadataReadOk
  · by_cases hco : env.commitOk
    · simp only [hro, Bool.not_true, Bool.false_eq_true, if_false, hco, if_true]
      rw [metadataOf_writeMetadata db rid _ r hrec]
      by_cases hmsg : errTruthy msg
      · rw [if_pos hmsg, getKey_setKey_ne _ _ _ _ (hk3 hmsg),
          getKey_setKey_ne _ _ _ _ hk2, getKey_setKey_ne _ _ _ _ hk1]
      · rw [if_neg hmsg, getKey_setKey_ne _ _ _ _ hk2, getKey_setKey_ne _ _ _ _ hk1]
    · simp only [hro, Bool.not_true, Bool.false_eq_true, if_false, hco]
      rw [hold]
  · simp only [hro]
    rw [if_pos (by simp [hro]), hold]

/-- Witness for C8 at a concrete input: a `stream_id` key survives a
`failed` status write untouched. -/
theorem c8_witness :
    getKey (metadataOf (update_transcoding_status DbEnv.reliable
      [{ id := 1, environment := "local", file_path := "/recordings/a.mp4",
         s3_path := none,
         recording_metadata := some [("stream_id", MetaVal.str "cam-1")] }]
      1 "failed" (some "boom") "T") 1) "stream_id" =
      some (MetaVal.str "cam-1") := by
  have h := c8_update_status_frame DbEnv.reliable
    [{ id := 1, environment := "local", file_path := "/recordings/a.mp4",
       s3_path := none,
       recording_metadata := some [("stream_id", MetaVal.str "cam-1")] }]
    1 "failed" (some "boom") "T"
    { id := 1, environment := "local", file_path := "/recordings/a.mp4",
      s3_path := none,
      recording_metadata := some [("stream_id", MetaVal.str "cam-1")] }
    "stream_id" (by decide) (by decide) (by decide) (fun _ => by decide)
  rw [h]
  decide

/-! ## C1 — submitting while a task is active or reserved is a no-op -/

/-- C1: if at the moment of the call an active or reserved
`process_recording_task` for the recording exists, `submit_processing_job`
returns that task's identifier, enqueues nothing, and leaves the database
untouched — so a second sequential submission inside the first job's active
lifetime adds no second transcoder execution. -/
theorem c1_submit_returns_existing_task (env : SubmitEnv) (db : Db)
    (recording_id : Int) (tid : String)
    (h : get_active_task_for_recording env.celery recording_id = some tid) :
    submit_processing_job env db recording_id =
      { taskId := tid, enqueued := [], db := db } := by
  unfold submit_processing_job check_task_exists
  rw [h]
  rfl

/-- A broker state holding one active processing task for recording 7. -/
def busyCelery : CeleryState where
  inspectOk := true
  active := [{ name := "app.services.video_processor.process_recording_task",
               args := [7], id := "tid-7" }]
  reserved := []

/-- A backend reporting every task as started. -/
def startedBackend : Backend where
  status := fun _ => "STARTED"
  result := fun _ => ""

/-- A concrete healthy submit environment over `busyCelery`. -/
def busySubmitEnv : SubmitEnv where
  celery := busyCelery
  backend := startedBackend
  dbenv := DbEnv.reliable
  brokerOk := true
  brokerError := ""
  freshTaskId := "fresh"
  nowEpoch := 0
  now := "T"

/-- Witness for C1: a concrete broker state with an active task for
recording 7 makes the submission return `tid-7` and enqueue nothing. -/
theorem c1_witness :
    submit_processing_job busySubmitEnv [] 7 =
      { taskId := "tid-7", enqueued := [], db := [] } :=
  c1_submit_returns_existing_task busySubmitEnv [] 7 "tid-7" (by decide)

/-! ## C5 — broker unavailability degrades gracefully -/

/-- C5: when no task exists for the recording and enqueuing raises (broker
down), `submit_processing_job` does not raise (its embedding is total): it
writes a `failed` transcoding status whose error names the connection
problem directly into the recording's metadata and returns the
`local-fallback-` task identifier, enqueuing nothing. -/
theorem c5_broker_down_degrades (env : SubmitEnv) (db : Db)
    (recording_id : Int) (r : Recording)
    (hno : get_active_task_for_recording env.celery recording_id = none)
    (hbroker : env.brokerOk = false)
    (henv : env.dbenv = DbEnv.reliable)
    (hrec : findRecording db recording_id = some r) :
    (submit_processing_job env db recording_id).taskId =
      "local-fallback-" ++ toString recording_id ++ "-" ++ toString env.nowEpoch ∧
    (submit_processing_job env db recording_id).enqueued = [] ∧
    getKey (metadataOf (submit_processing_job env db recording_id).db recording_id)
      "transcoding_status" = some (MetaVal.str "failed") ∧
    getKey (metadataOf (submit_processing_job env db recording_id).db recording_id)
      "transcoding_error" =
      some (MetaVal.str ("Redis connection error: " ++ env.brokerError)) := by
  have hsub : submit_processing_job env db recording_id =
      { taskId := "local-fallback-" ++ toString recording_id ++ "-" ++ toString env.nowEpoch,
        enqueued := [],
        db := update_transcoding_status env.dbenv db recording_id "failed"
          (some ("Redis connection error: " ++ env.brokerError)) env.now } := by
    unfold submit_processing_job check_task_exists
    rw [hno, hbroker]
    rfl
  rw [hsub, henv]
  refine ⟨rfl, rfl, ?_, ?_⟩
  · exact (failed_update_status_keys db recording_id _ env.now r hrec
      (by intro hcon; exact absurd (congrArg String.data hcon) (by simp))).1
  · exact (failed_update_status_keys db recording_id _ env.now r hrec
      (by intro hcon; exact absurd (congrArg String.data hcon) (by simp))).2

/-- An idle broker state with no tasks at all. -/
def idleCelery : CeleryState where
  inspectOk := true
  active := []
  reserved := []

/-- A submit environment whose enqueue raises (broker down). -/
def downSubmitEnv : SubmitEnv where
  celery := idleCelery
  backend := startedBackend
  dbenv := DbEnv.reliable
  brokerOk := false
  brokerError := "down"
  freshTaskId := "fresh"
  nowEpoch := 99
  now := "T"

/-- A one-row database holding local recording 3. -/
def rec3 : Recording where
  id := 3
  environment := "local"
  file_path := "/recordings/a.mp4"
  s3_path := none
  recording_metadata := none

/-- Witness for C5: a concrete down broker on a one-recording database
yields the fallback task id. -/
theorem c5_witness :
    (submit_processing_job downSubmitEnv [rec3] 3).taskId = "local-fallback-3-99" := by
  have h := c5_broker_down_degrades downSubmitEnv [rec3] 3 rec3
    (by decide) rfl rfl (by decide)
  rw [h.1]
  decide

/-! ## C2 — transcode is idempotent when the playlist already exists -/

/-- C2: if the output directory already holds `playlist.m3u8`,
`process_video_for_streaming` returns that playlist path with a probe of
the input, runs the external encoder zero times, and leaves the filesystem
unchanged; and after any successful call a repeat call with the same
arguments runs the encoder zero times and returns the same playlist path —
so two sequential calls encode at most once. -/
theorem c2_transcode_idempotent (env : VideoEnv) (input_file output_dir : String) :
    (List.contains env.files (osPathJoin output_dir "playlist.m3u8") = true →
      process_video_for_streaming env input_file output_dir =
        (Except.ok (osPathJoin output_dir "playlist.m3u8", get_video_info env input_file),
         env.files, 0)) ∧
    (∀ pl info fs1 n,
      process_video_for_streaming env input_file output_dir =
        (Except.ok (pl, info), fs1, n) →
      n ≤ 1 ∧
      process_video_for_streaming { env with files := fs1 } input_file output_dir =
        (Except.ok (pl, get_video_info { env with files := fs1 } input_file), fs1, 0)) := by
  constructor
  · intro hpl
    unfold process_video_for_streaming
    rw [if_pos hpl]
  · intro pl info fs1 n hcall
    have hkey : pl = osPathJoin output_dir "playlist.m3u8" ∧
        List.contains fs1 (osPathJoin output_dir "playlist.m3u8") = true ∧ n ≤ 1 := by
      unfold process_video_for_streaming at hcall
      cases hpl : List.contains env.files (osPathJoin output_dir "playlist.m3u8") with
      | true =>
        rw [if_pos hpl] at hcall
        have h1 := congrArg (fun t => t.1) hcall
        have h2 := congrArg (fun t => t.2.1) hcall
        have h3 := congrArg (fun t => t.2.2) hcall
        simp only [Except.ok.injEq, Prod.mk.injEq] at h1 h2 h3
        exact ⟨h1.1.symm, by rw [← h2]; exact hpl, by subst h3; decide⟩
      | false =>
        rw [if_neg (not_true_of_false hpl)] at hcall
        cases hin : List.contains env.files input_file with
        | false =>
          rw [if_pos (bnot_true hin)] at hcall
          exact absurd hcall (by simp)
        | true =>
          rw [if_neg (not_bnot_true hin)] at hcall
          cases hrd : List.contains env.readable input_file with
          | false =>
            rw [if_pos (bnot_true hrd)] at hcall
            exact absurd hcall (by simp)
          | true =>
            rw [if_neg (not_bnot_true hrd)] at hcall
            cases hgv : get_video_info env input_file with
            | none => rw [hgv] at hcall; exact absurd hcall (by simp)
            | some info0 =>
              rw [hgv] at hcall
              dsimp only [] at hcall
              unfold create_hls_playlist at hcall
              cases hdw : env.dirWritable output_dir with
              | false =>
                rw [if_pos (bnot_true hdw)] at hcall
                exact absurd hcall (by simp)
              | true =>
                rw [if_neg (not_bnot_true hdw), if_neg (not_bnot_true hin),
                  if_neg (not_bnot_true hrd)] at hcall
                cases hpr : env.probe input_file with
                | none => rw [hpr] at hcall; exact absurd hcall (by simp)
                | some pr =>
                  rw [hpr] at hcall
                  dsimp only [] at hcall
                  cases hst : List.find? (fun s => s.codec_type == "video") pr.streams with
                  | none => rw [hst] at hcall; exact absurd hcall (by simp)
                  | some vstream =>
                    rw [hst] at hcall
                    dsimp only [] at hcall
                    cases henc : env.encodeOk with
                    | false =>
                      rw [if_neg (not_true_of_false henc)] at hcall
                      exact absurd hcall (by simp)
                    | true =>
                      rw [if_pos henc] at hcall
                      have h1 := congrArg (fun t => t.1) hcall
                      have h2 := congrArg (fun t => t.2.1) hcall
                      have h3 := congrArg (fun t => t.2.2) hcall
                      simp only [Except.ok.injEq, Prod.mk.injEq] at h1 h2 h3
                      refine ⟨h1.1.symm, ?_, by subst h3; decide⟩
                      rw [← h2]
                      simp [List.contains_cons]
    refine ⟨hkey.2.2, ?_⟩
    have hsecond : process_video_for_streaming { env with files := fs1 } input_file output_dir =
        (Except.ok (osPathJoin output_dir "playlist.m3u8",
          get_video_info { env with files := fs1 } input_file), fs1, 0) := by
      unfold process_video_for_streaming
      rw [if_pos hkey.2.1]
    rw [hkey.1]
    exact hsecond

/-- A filesystem state whose output directory already holds a playlist. -/
def cachedVideoEnv : VideoEnv where
  files := ["/recordings/hls/1/playlist.m3u8", "/recordings/a.mp4"]
  readable := ["/recordings/a.mp4"]
  probe := fun _ => none
  fileSize := fun _ => 0
  dirWritable := fun _ => true
  encodeOk := true
  encodeStderr := ""

/-- Witness for C2: with the playlist already on disk, a concrete call
returns it, touches nothing and never runs the encoder. -/
theorem c2_witness :
    process_video_for_streaming cachedVideoEnv "/recordings/a.mp4" "/recordings/hls/1" =
      (Except.ok ("/recordings/hls/1/playlist.m3u8",
        get_video_info cachedVideoEnv "/recordings/a.mp4"),
       cachedVideoEnv.files, 0) := by
  have hp : osPathJoin "/recordings/hls/1" "playlist.m3u8" =
      "/recordings/hls/1/playlist.m3u8" := by decide
  have h := (c2_transcode_idempotent cachedVideoEnv "/recordings/a.mp4" "/recordings/hls/1").1
    (by decide)
  rw [hp] at h
  exact h

/-! ## C9 — a missing, unreadable or streamless source never probes to a
normal MediaInfo -/

/-- The video stream found by `ffmpeg.probe`, if any: `none` covers both a
raised probe and a probe reporting no `video`-type stream. -/
def probeVideoStream (env : VideoEnv) (p : String) : Option StreamInfo :=
  match env.probe p with
  | none => none
  | some pr => List.find? (fun s => s.codec_type == "video") pr.streams

/-- C9: when the source file is missing, unreadable, or yields no video
stream, the probe phase of `process_video_for_streaming` (absent a cached
playlist) ends in a raised error, never a normal result; and in the missing
and streamless cases `get_video_info` itself reports no media info. -/
theorem c9_probe_failure_is_error (env : VideoEnv) (input_file output_dir : String)
    (hnp : List.contains env.files (osPathJoin output_dir "playlist.m3u8") = false)
    (h : List.contains env.files input_file = false ∨
         List.contains env.readable input_file = false ∨
         probeVideoStream env input_file = none) :
    (∃ e, (process_video_for_streaming env input_file output_dir).1 = Except.error e) ∧
    (List.contains env.files input_file = false ∨ probeVideoStream env input_file = none →
      get_video_info env input_file = none) := by
  have hgv : List.contains env.files input_file = false ∨
      probeVideoStream env input_file = none → get_video_info env input_file = none := by
    intro hc
    unfold get_video_info
    cases hc with
    | inl hmiss => rw [if_pos (bnot_true hmiss)]
    | inr hstream =>
      unfold probeVideoStream at hstream
      cases hin : List.contains env.files input_file with
      | false => rfl
      | true =>
        cases hpr : env.probe input_file with
        | none => rfl
        | some pr =>
          rw [hpr] at hstream
          dsimp only [] at hstream
          dsimp only []
          rw [hstream]
          rfl
  refine ⟨?_, hgv⟩
  unfold process_video_for_streaming
  rw [if_neg (not_true_of_false hnp)]
  rcases h with hmiss | hunread | hstream
  · rw [if_pos (bnot_true hmiss)]
    exact ⟨_, rfl⟩
  · cases hin : List.contains env.files input_file with
    | true =>
      rw [if_pos (bnot_true hunread)]
      exact ⟨_, rfl⟩
    | false => exact ⟨_, rfl⟩
  · cases hin : List.contains env.files input_file with
    | true =>
      cases hrd : List.contains env.readable input_file with
      | true =>
        rw [hgv (Or.inr hstream)]
        exact ⟨_, rfl⟩
      | false => exact ⟨_, rfl⟩
    | false => exact ⟨_, rfl⟩

/-- An audio-only stream entry as `ffmpeg.probe` would report it. -/
def audioStream : StreamInfo where
  codec_type := "audio"
  width := 0
  height := 0
  codec_name := "aac"

/-- A probe result holding only `audioStream`. -/
def audioProbe : ProbeResult where
  streams := [audioStream]
  formatDuration := 3
  formatBitRate := 64
  formatName := "mp4"

/-- A filesystem on which the source file exists and is readable but holds
no video stream. -/
def audioOnlyEnv : VideoEnv where
  files := ["/recordings/a.mp4"]
  readable := ["/recordings/a.mp4"]
  probe := fun _ => some audioProbe
  fileSize := fun _ => 10
  dirWritable := fun _ => true
  encodeOk := true
  encodeStderr := ""

/-- Witness for C9: probing a concrete audio-only file errors out of the
pipeline and yields no media info. -/
theorem c9_witness :
    (∃ e, (process_video_for_streaming audioOnlyEnv "/recordings/a.mp4"
      "/recordings/hls/1").1 = Except.error e) ∧
    get_video_info audioOnlyEnv "/recordings/a.mp4" = none := by
  have h := c9_probe_failure_is_error audioOnlyEnv "/recordings/a.mp4" "/recordings/hls/1"
    (by decide) (Or.inr (Or.inr (by decide)))
  exact ⟨h.1, h.2 (Or.inr (by decide))⟩

/-! ## C3 — fetch, probe and transcode failures never escape the task -/

theorem string_data_append (a b : String) : (a ++ b).data = a.data ++ b.data := by
  cases a
  cases b
  rfl

theorem string_append_ne_empty (a b : String) (h : a.data ≠ []) : a ++ b ≠ "" := by
  intro hc
  have hd := congrArg String.data hc
  rw [string_data_append] at hd
  have hd' : a.data ++ b.data = [] := hd
  exact h (List.append_eq_nil.mp hd').1

/-- The failure modes the claim ranges over, read off the branch structure
of `process_recording_task`: a missing local file, a failed
fetch-probe-transcode of the local file, a missing S3 key, a failed or
raising S3 download, or a failed fetch-probe-transcode of the downloaded
file. -/
def fetchProbeTranscodeFails (env : JobEnv) (r : Recording) (rid : Int) : Bool :=
  let hls_output_dir := osPathJoin "/recordings/hls" (toString rid)
  if r.environment == "local" then
    let file_path := if strStartsWith r.file_path "/recordings/" then r.file_path
      else osPathJoin "/recordings" (basename r.file_path)
    if !(List.contains env.venv.files file_path) then true
    else
      match process_video_for_streaming env.venv file_path hls_output_dir with
      | (Except.error _, _, _) => true
      | (Except.ok _, _, _) => false
  else
    if !(s3Truthy r.s3_path) then true
    else
      let s3p0 := r.s3_path.getD ""
      let s3p := if strStartsWith s3p0 "s3://" then strDrop s3p0 5 else s3p0
      match env.s3 s3p with
      | S3Outcome.returnedFalse => true
      | S3Outcome.raised _ => true
      | S3Outcome.ok =>
        match process_video_for_streaming env.venv env.tempName hls_output_dir with
        | (Except.error _, _, _) => true
        | (Except.ok _, _, _) => false

/-- C3: for a recording present in the datastore, every fetch, probe or
transcode failure makes `process_recording_task` return normally (the plain
`return`, no escaping exception) with a `failed` transcoding status and a
non-empty human-readable error string in the recording's metadata. -/
theorem c3_job_failures_contained (env : JobEnv) (db : Db) (rid : Int) (r : Recording)
    (hrec : findRecording db rid = some r)
    (henv : env.dbenv = DbEnv.reliable)
    (hfail : fetchProbeTranscodeFails env r rid = true) :
    (process_recording_task env db rid).1 = JobResult.earlyReturn ∧
    getKey (metadataOf (process_recording_task env db rid).2 rid) "transcoding_status" =
      some (MetaVal.str "failed") ∧
    ∃ e, e ≠ "" ∧
      getKey (metadataOf (process_recording_task env db rid).2 rid) "transcoding_error" =
        some (MetaVal.str e) := by
  obtain ⟨msg, hne, hrun⟩ : ∃ msg, msg ≠ "" ∧
      process_recording_task env db rid =
        (JobResult.earlyReturn,
         update_transcoding_status env.dbenv db rid "failed" (some msg) env.now) := by
    unfold process_recording_task
    unfold fetchProbeTranscodeFails at hfail
    rw [hrec]
    try dsimp only [] at hfail
    try dsimp only []
    cases hl : r.environment == "local" with
    | true =>
      rw [hl] at hfail
      try simp only [Bool.not_true, Bool.not_false, Bool.false_eq_true, if_false, if_true] at hfail
      try simp only [Bool.not_true, Bool.not_false, Bool.false_eq_true, if_false, if_true]
      cases hsw : strStartsWith r.file_path "/recordings/" with
      | true =>
        rw [hsw] at hfail
        try simp only [Bool.not_true, Bool.not_false, Bool.false_eq_true, if_false, if_true] at hfail
        try simp only [Bool.not_true, Bool.not_false, Bool.false_eq_true, if_false, if_true]
        cases hcon : List.contains env.venv.files r.file_path with
        | false =>
          rw [hcon] at hfail
          try simp only [Bool.not_true, Bool.not_false, Bool.false_eq_true, if_false, if_true] at hfail
          try simp only [Bool.not_true, Bool.not_false, Bool.false_eq_true, if_false, if_true]
          exact ⟨_, string_append_ne_empty "File not found at " r.file_path (by decide), rfl⟩
        | true =>
          rw [hcon] at hfail
          try simp only [Bool.not_true, Bool.not_false, Bool.false_eq_true, if_false, if_true] at hfail
          try simp only [Bool.not_true, Bool.not_false, Bool.false_eq_true, if_false, if_true]
          rcases hpv : process_video_for_streaming env.venv r.file_path
              (osPathJoin "/recordings/hls" (toString rid)) with ⟨res, fsx, nx⟩
          rw [hpv] at hfail
          cases res with
          | error e =>
            exact ⟨_, string_append_ne_empty "Failed to process video for streaming: " e
              (by decide), rfl⟩
          | ok p => simp at hfail
      | false =>
        rw [hsw] at hfail
        try simp only [Bool.not_true, Bool.not_false, Bool.false_eq_true, if_false, if_true] at hfail
        try simp only [Bool.not_true, Bool.not_false, Bool.false_eq_true, if_false, if_true]
        cases hcon : List.contains env.venv.files
            (osPathJoin "/recordings" (basename r.file_path)) with
        | false =>
          rw [hcon] at hfail
          try simp only [Bool.not_true, Bool.not_false, Bool.false_eq_true, if_false, if_true] at hfail
          try simp only [Bool.not_true, Bool.not_false, Bool.false_eq_true, if_false, if_true]
          exact ⟨_, string_append_ne_empty "File not found at " _ (by decide), rfl⟩
        | true =>
          rw [hcon] at hfail
          try simp only [Bool.not_true, Bool.not_false, Bool.false_eq_true, if_false, if_true] at hfail
          try simp only [Bool.not_true, Bool.not_false, Bool.false_eq_true, if_false, if_true]
          rcases hpv : process_video_for_streaming env.venv
              (osPathJoin "/recordings" (basename r.file_path))
              (osPathJoin "/recordings/hls" (toString rid)) with ⟨res, fsx, nx⟩
          rw [hpv] at hfail
          cases res with
          | error e =>
            exact ⟨_, string_append_ne_empty "Failed to process video for streaming: " e
              (by decide), rfl⟩
          | ok p => simp at hfail
    | false =>
      rw [hl] at hfail
      try simp only [Bool.not_true, Bool.not_false, Bool.false_eq_true, if_false, if_true] at hfail
      try simp only [Bool.not_true, Bool.not_false, Bool.false_eq_true, if_false, if_true]
      cases hs3 : s3Truthy r.s3_path with
      | false =>
        rw [hs3] at hfail
        try simp only [Bool.not_true, Bool.not_false, Bool.false_eq_true, if_false, if_true] at hfail
        try simp only [Bool.not_true, Bool.not_false, Bool.false_eq_true, if_false, if_true]
        exact ⟨_, string_append_ne_empty "Recording does not have an S3 path: " _
          (by decide), rfl⟩
      | true =>
        rw [hs3] at hfail
        try simp only [Bool.not_true, Bool.not_false, Bool.false_eq_true, if_false, if_true] at hfail
        try simp only [Bool.not_true, Bool.not_false, Bool.false_eq_true, if_false, if_true]
        cases hsc : env.s3 (if strStartsWith (r.s3_path.getD "") "s3://" then
            strDrop (r.s3_path.getD "") 5 else r.s3_path.getD "") with
        | returnedFalse =>
          rw [hsc] at hfail
          exact ⟨_, by decide, rfl⟩
        | raised m =>
          rw [hsc] at hfail
          exact ⟨_, string_append_ne_empty "S3 download error: " m (by decide), rfl⟩
        | ok =>
          rw [hsc] at hfail
          rcases hpv : process_video_for_streaming env.venv env.tempName
              (osPathJoin "/recordings/hls" (toString rid)) with ⟨res, fsx, nx⟩
          rw [hpv] at hfail
          cases res with
          | error e =>
            exact ⟨_, string_append_ne_empty "Failed to process S3 video: " e
              (by decide), rfl⟩
          | ok p => simp at hfail
  rw [hrun, henv]
  have hkeys := failed_update_status_keys db rid msg env.now r hrec hne
  exact ⟨rfl, hkeys.1, ⟨msg, hne, hkeys.2⟩⟩

/-- A filesystem with no files at all. -/
def emptyVideoEnv : VideoEnv where
  files := []
  readable := []
  probe := fun _ => none
  fileSize := fun _ => 0
  dirWritable := fun _ => true
  encodeOk := true
  encodeStderr := ""

/-- A job environment over the empty filesystem with a reliable session. -/
def c3JobEnv : JobEnv where
  venv := emptyVideoEnv
  dbenv := DbEnv.reliable
  s3 := fun _ => S3Outcome.ok
  tempName := "/tmp/t.mp4"
  now := "T"
  commitMsg := ""

/-- Witness for C3: a local recording whose file is absent ends with a
normal return and a `failed` status carrying a non-empty error. -/
theorem c3_witness :
    (process_recording_task c3JobEnv [rec3] 3).1 = JobResult.earlyReturn ∧
    getKey (metadataOf (process_recording_task c3JobEnv [rec3] 3).2 3) "transcoding_status" =
      some (MetaVal.str "failed") ∧
    ∃ e, e ≠ "" ∧
      getKey (metadataOf (process_recording_task c3JobEnv [rec3] 3).2 3) "transcoding_error" =
        some (MetaVal.str e) :=
  c3_job_failures_contained c3JobEnv [rec3] 3 rec3 (by decide) rfl (by decide)

/-! ## C4 — path traversal in the local fetch branch -/

theorem basenameChars_no_slash (l : List Char) (acc : List Char) (hacc : '/' ∉ acc) :
    '/' ∉ basenameChars acc l := by
  induction l generalizing acc with
  | nil => simpa [basenameChars] using hacc
  | cons c rest ih =>
    by_cases hc : c = '/'
    · subst hc
      rw [show basenameChars acc ('/' :: rest) = basenameChars [] rest from by
        simp [basenameChars]]
      exact ih [] (by simp)
    · rw [show basenameChars acc (c :: rest) = basenameChars (acc ++ [c]) rest from by
        simp [basenameChars, hc]]
      refine ih _ ?_
      intro hmem
      rcases List.mem_append.mp hmem with hmem1 | hmem2
      · exact hacc hmem1
      · simp at hmem2
        exact hc hmem2.symm

theorem splitSlash_cons_slash (l : List Char) :
    splitSlash ('/' :: l) = [] :: splitSlash l := by
  simp [splitSlash]

theorem splitSlash_cons_ne (c : Char) (l : List Char) (hc : ¬ c = '/') :
    splitSlash (c :: l) =
      match splitSlash l with
      | [] => [[c]]
      | h :: t => (c :: h) :: t := by
  simp [splitSlash, hc]

theorem splitSlash_no_slash (l : List Char) (h : '/' ∉ l) : splitSlash l = [l] := by
  induction l with
  | nil => rfl
  | cons c rest ih =>
    have hc : ¬ c = '/' := by
      intro he
      subst he
      exact h (List.mem_cons_self _ _)
    have hr : '/' ∉ rest := fun hm => h (List.mem_cons_of_mem c hm)
    rw [splitSlash_cons_ne c rest hc, ih hr]

theorem splitSlash_recordings (bs : List Char) (h : '/' ∉ bs) :
    splitSlash ('/' :: 'r' :: 'e' :: 'c' :: 'o' :: 'r' :: 'd' :: 'i' :: 'n' :: 'g' ::
        's' :: '/' :: bs) =
      [[], ['r', 'e', 'c', 'o', 'r', 'd', 'i', 'n', 'g', 's'], bs] := by
  rw [splitSlash_cons_slash, splitSlash_cons_ne 'r' _ (by decide),
    splitSlash_cons_ne 'e' _ (by decide), splitSlash_cons_ne 'c' _ (by decide),
    splitSlash_cons_ne 'o' _ (by decide), splitSlash_cons_ne 'r' _ (by decide),
    splitSlash_cons_ne 'd' _ (by decide), splitSlash_cons_ne 'i' _ (by decide),
    splitSlash_cons_ne 'n' _ (by decide), splitSlash_cons_ne 'g' _ (by decide),
    splitSlash_cons_ne 's' _ (by decide), splitSlash_cons_slash,
    splitSlash_no_slash bs h]

theorem normStack_recordings (bs : List Char) (hne : bs ≠ ['.', '.']) :
    normStack [] [[], ['r', 'e', 'c', 'o', 'r', 'd', 'i', 'n', 'g', 's'], bs] =
        [['r', 'e', 'c', 'o', 'r', 'd', 'i', 'n', 'g', 's']] ∨
    normStack [] [[], ['r', 'e', 'c', 'o', 'r', 'd', 'i', 'n', 'g', 's'], bs] =
        [['r', 'e', 'c', 'o', 'r', 'd', 'i', 'n', 'g', 's'], bs] := by
  by_cases h0 : bs = ([] : List Char)
  · subst h0
    left
    decide
  · by_cases h1 : bs = ['.']
    · subst h1
      left
      decide
    · right
      show normStack [] ([] :: ['r', 'e', 'c', 'o', 'r', 'd', 'i', 'n', 'g', 's'] :: [bs]) = _
      rw [show normStack [] ([] :: ['r', 'e', 'c', 'o', 'r', 'd', 'i', 'n', 'g', 's'] :: [bs]) =
          normStack [['r', 'e', 'c', 'o', 'r', 'd', 'i', 'n', 'g', 's']] [bs] from by
        simp [normStack]]
      rw [show normStack [['r', 'e', 'c', 'o', 'r', 'd', 'i', 'n', 'g', 's']] [bs] =
          normStack ([['r', 'e', 'c', 'o', 'r', 'd', 'i', 'n', 'g', 's']] ++ [bs]) [] from by
        simp [normStack, h0, h1, hne]]
      rfl

theorem insideRecordingsRoot_slash_join (b : String)
    (hb : '/' ∉ b.data) (hne : b.data ≠ ['.', '.']) :
    insideRecordingsRoot ("/recordings" ++ "/" ++ b) = true := by
  unfold insideRecordingsRoot
  have hdata : ("/recordings" ++ "/" ++ b).data =
      '/' :: 'r' :: 'e' :: 'c' :: 'o' :: 'r' :: 'd' :: 'i' :: 'n' :: 'g' :: 's' ::
        '/' :: b.data := by
    rw [string_data_append, string_data_append]
    rfl
  rw [hdata, splitSlash_recordings b.data hb]
  rcases normStack_recordings b.data hne with h | h
  · rw [h]
    decide
  · rw [h]
    rfl

/-- The shared failure shape of the local branch when the remapped file is
absent: a normal return and a `failed` status write. -/
theorem local_missing_file_fails (env : JobEnv) (db : Db) (rid : Int) (r : Recording)
    (hrec : findRecording db rid = some r)
    (henv : env.dbenv = DbEnv.reliable)
    (hl : (r.environment == "local") = true)
    (hsw : strStartsWith r.file_path "/recordings/" = false)
    (hcon : List.contains env.venv.files
      (osPathJoin "/recordings" (basename r.file_path)) = false) :
    (process_recording_task env db rid).1 = JobResult.earlyReturn ∧
    getKey (metadataOf (process_recording_task env db rid).2 rid) "transcoding_status" =
      some (MetaVal.str "failed") := by
  have hrun : process_recording_task env db rid =
      (JobResult.earlyReturn,
       update_transcoding_status env.dbenv db rid "failed"
         (some ("File not found at " ++ osPathJoin "/recordings" (basename r.file_path)))
         env.now) := by
    unfold process_recording_task
    rw [hrec]
    dsimp only []
    rw [hl]
    simp only [if_true]
    rw [hsw]
    simp only [Bool.false_eq_true, if_false]
    rw [hcon]
    simp only [Bool.not_false, if_true]
  rw [hrun, henv]
  exact ⟨rfl, (failed_update_status_keys db rid _ env.now r hrec
    (string_append_ne_empty _ _ (by decide))).1⟩

/-- A video stream entry for the traversal counterexample. -/
def c4Stream : StreamInfo where
  codec_type := "video"
  width := 640
  height := 480
  codec_name := "h264"

/-- A probe result holding one video stream. -/
def c4Probe : ProbeResult where
  streams := [c4Stream]
  formatDuration := 10
  formatBitRate := 1000
  formatName := "mpeg"

/-- A filesystem on which `/recordings/../etc/passwd` (i.e. `/etc/passwd`)
exists, is readable and probes as a valid video. -/
def c4VideoEnv : VideoEnv where
  files := ["/recordings/../etc/passwd"]
  readable := ["/recordings/../etc/passwd"]
  probe := fun p => if p == "/recordings/../etc/passwd" then some c4Probe else none
  fileSize := fun _ => 100
  dirWritable := fun _ => true
  encodeOk := true
  encodeStderr := ""

/-- A job environment over `c4VideoEnv` with a reliable session. -/
def c4JobEnv : JobEnv where
  venv := c4VideoEnv
  dbenv := DbEnv.reliable
  s3 := fun _ => S3Outcome.ok
  tempName := "/tmp/t.mp4"
  now := "T"
  commitMsg := ""

/-- A local recording whose stored path starts with `/recordings/` but
normalizes to `/etc/passwd`, outside the recordings root. -/
def c4Db : Db :=
  [{ id := 1, environment := "local", file_path := "/recordings/../etc/passwd",
     s3_path := none, recording_metadata := none }]

/-- The media info the prober reports for the escaped file. -/
def c4Info : VideoInfo where
  width := 640
  height := 480
  duration := 10
  bitrate := 1000
  format := "mpeg"
  codec := "h264"
  size := 100

/-- Counterexample to C4: the stored path `/recordings/../etc/passwd`
normalizes outside the recordings root, yet the local branch accepts it
verbatim (it passes the `startswith` check) and the job runs to success on
that file instead of rejecting it as source-not-found. -/
theorem c4_counterexample :
    strStartsWith "/recordings/../etc/passwd" "/recordings/" = true ∧
    insideRecordingsRoot "/recordings/../etc/passwd" = false ∧
    (process_recording_task c4JobEnv c4Db 1).1 =
      JobResult.success 1 "/recordings/hls/1" (some c4Info) := by
  decide

/-- C4 amended: the local branch remaps only stored paths that do not begin
with `/recordings/` to `/recordings/` + basename.  For such paths whose
basename is not `..`, the remapped path always normalizes to a location at
or under the recordings root — so relative `../../etc/passwd`-style
traversals are never opened outside the root — and when the remapped file
is absent the job fails as file-not-found.  (Stored paths beginning with
`/recordings/` are used verbatim and are not normalized, which is what the
counterexample exploits.) -/
theorem c4_amended_no_relative_traversal (fp : String)
    (h1 : strStartsWith fp "/recordings/" = false)
    (h2 : basename fp ≠ "..") :
    insideRecordingsRoot (osPathJoin "/recordings" (basename fp)) = true ∧
    (∀ env db rid r, findRecording db rid = some r →
      env.dbenv = DbEnv.reliable →
      (r.environment == "local") = true →
      r.file_path = fp →
      List.contains env.venv.files (osPathJoin "/recordings" (basename fp)) = false →
      (process_recording_task env db rid).1 = JobResult.earlyReturn ∧
      getKey (metadataOf (process_recording_task env db rid).2 rid) "transcoding_status" =
        some (MetaVal.str "failed")) := by
  have hb : '/' ∉ (basename fp).data :=
    basenameChars_no_slash fp.data [] (by simp)
  have hne : (basename fp).data ≠ ['.', '.'] := by
    intro hd
    apply h2
    show String.mk (basenameChars [] fp.data) = ".."
    have hd' : basenameChars [] fp.data = ['.', '.'] := hd
    rw [hd']
  have hjoin : osPathJoin "/recordings" (basename fp) =
      "/recordings" ++ "/" ++ basename fp := by
    have hhead : ¬((basename fp).data.head? = some '/') := by
      cases hd : (basename fp).data with
      | nil => simp
      | cons c t =>
        rw [hd] at hb
        simp only [List.head?]
        intro hcc
        have hc : c = '/' := by injection hcc
        subst hc
        exact hb (List.mem_cons_self _ _)
    have hlast : ¬(("/recordings" : String).data.getLast? = some '/') := by decide
    unfold osPathJoin
    rw [if_neg hhead, if_neg hlast]
  constructor
  · rw [hjoin]
    exact insideRecordingsRoot_slash_join (basename fp) hb hne
  · intro env db rid r hrec henv hl hfp hcon
    have hsw : strStartsWith r.file_path "/recordings/" = false := by
      rw [hfp]
      exact h1
    have hcon2 : List.contains env.venv.files
        (osPathJoin "/recordings" (basename r.file_path)) = false := by
      rw [hfp]
      exact hcon
    exact local_missing_file_fails env db rid r hrec henv hl hsw hcon2

/-- A local recording storing a relative traversal path. -/
def recTraversal : Recording where
  id := 4
  environment := "local"
  file_path := "../../etc/passwd"
  s3_path := none
  recording_metadata := none

/-- Witness for the amended C4 at `../../etc/passwd`: the remapped path
stays inside the root, and with the remapped file absent the job fails. -/
theorem c4_witness :
    insideRecordingsRoot (osPathJoin "/recordings" (basename "../../etc/passwd")) = true ∧
    (process_recording_task c3JobEnv [recTraversal] 4).1 = JobResult.earlyReturn :=
  ⟨(c4_amended_no_relative_traversal "../../etc/passwd" (by decide) (by decide)).1,
   ((c4_amended_no_relative_traversal "../../etc/passwd" (by decide) (by decide)).2
     c3JobEnv [recTraversal] 4 recTraversal (by decide) rfl (by decide) rfl (by decide)).1⟩

/-! ## C6 — the status vocabulary of the poll endpoint -/

theorem celeryStatusMap_mem (s : String) :
    celeryStatusMap s ∈
      ["queued", "processing", "completed", "failed", "cancelled", "unknown"] := by
  unfold celeryStatusMap
  repeat' split
  all_goals simp

/-- Counterexample to C6: for an existing, accessible recording whose
stored `transcoding_status` is `in_progress` — exactly the value the
streaming endpoint writes when it starts processing — and with no live
task, the poll endpoint reports `in_progress`, which is outside the claimed
vocabulary queued/processing/completed/failed. -/
theorem c6_counterexample :
    (get_recording_processing_status [] none 1
      (some [("transcoding_status", MetaVal.str "in_progress")])).status = "in_progress" ∧
    ¬((get_recording_processing_status [] none 1
      (some [("transcoding_status", MetaVal.str "in_progress")])).status ∈
      (["queued", "processing", "completed", "failed"] : List String)) := by
  constructor
  · decide
  · intro h
    revert h
    decide

/-- C6 amended: the poll endpoint's status is drawn from the fixed
vocabulary ready / queued / processing / completed / failed / cancelled /
unknown / not_processed, or else it echoes verbatim the `transcoding_status`
string stored in the recording's metadata (which can be `in_progress`). -/
theorem c6_amended_status_vocabulary (fs : List String) (task : Option TaskStatusInfo)
    (rid : Int) (meta : Option Metadata) :
    (get_recording_processing_status fs task rid meta).status ∈
      ["ready", "queued", "processing", "completed", "failed", "cancelled",
       "unknown", "not_processed"] ∨
    (hasKey (meta.getD []) "transcoding_status" = true ∧
     (get_recording_processing_status fs task rid meta).status =
       getStr (meta.getD []) "transcoding_status") := by
  unfold get_recording_processing_status
  cases task with
  | some t =>
    dsimp only []
    split
    · left
      simp
    · left
      have hm := celeryStatusMap_mem t.status
      simp only [List.mem_cons, List.not_mem_nil, or_false] at hm ⊢
      tauto
  | none =>
    dsimp only []
    split
    · left
      simp
    · split
      · next hmeta =>
        have hts : hasKey (meta.getD []) "transcoding_status" = true := by
          rw [Bool.and_eq_true] at hmeta
          exact hmeta.2
        split
        · right
          exact ⟨hts, rfl⟩
        · right
          exact ⟨hts, rfl⟩
      · left
        simp

/-- Witness for the amended C6 at a concrete input: the `in_progress`
metadata state falls into the echoed-stored-status disjunct. -/
theorem c6_witness :
    hasKey ((some [("transcoding_status", MetaVal.str "in_progress")] :
        Option Metadata).getD []) "transcoding_status" = true ∧
    (get_recording_processing_status [] none 1
      (some [("transcoding_status", MetaVal.str "in_progress")])).status =
      getStr ((some [("transcoding_status", MetaVal.str "in_progress")] :
        Option Metadata).getD []) "transcoding_status" := by
  rcases c6_amended_status_vocabulary [] none 1
    (some [("transcoding_status", MetaVal.str "in_progress")]) with h | h
  · exact absurd h (by decide)
  · exact h

/-! ## C7 — where `can_retry` comes from -/

theorem option_getD_some (m : Metadata) : (some m).getD [] = m := rfl

theorem setKey_ne_nil (m : Metadata) (k : String) (v : MetaVal) :
    setKey m k v ≠ [] := by
  cases m with
  | nil => simp [setKey]
  | cons p rest =>
    unfold setKey
    split <;> simp

theorem isEmpty_setKey (m : Metadata) (k : String) (v : MetaVal) :
    (setKey m k v).isEmpty = false := by
  cases hm : setKey m k v with
  | nil => exact absurd hm (setKey_ne_nil m k v)
  | cons a l => rfl

/-- Counterexample to C7: after the Runner's own `failed` write (which is
what every job-failure path calls), the recording's metadata holds the
error detail but no `can_retry` key at all. -/
theorem c7_counterexample :
    getKey (metadataOf (update_transcoding_status DbEnv.reliable [rec3] 3 "failed"
      (some "boom") "T") 3) "transcoding_error" = some (MetaVal.str "boom") ∧
    getKey (metadataOf (update_transcoding_status DbEnv.reliable [rec3] 3 "failed"
      (some "boom") "T") 3) "can_retry" = none := by
  decide

/-- C7 amended: on a failed job the Runner writes the error detail into the
recording's metadata but leaves `can_retry` untouched there; it is the
status-poll endpoint that adds `can_retry == true` to its response whenever
it reports a stored `failed` status with an error — so a subsequent poll
still reports a non-empty error and `can_retry == true`. -/
theorem c7_amended_poll_reports_can_retry (db : Db) (rid : Int) (e now : String)
    (r : Recording) (fs : List String)
    (hrec : findRecording db rid = some r)
    (he : e ≠ "")
    (hhls : hasKey (r.recording_metadata.getD []) "hls_path" = false) :
    getKey (metadataOf (update_transcoding_status DbEnv.reliable db rid "failed"
        (some e) now) rid) "can_retry" =
      getKey (r.recording_metadata.getD []) "can_retry" ∧
    (get_recording_processing_status fs none rid
        (some (metadataOf (update_transcoding_status DbEnv.reliable db rid "failed"
          (some e) now) rid))).status = "failed" ∧
    (get_recording_processing_status fs none rid
        (some (metadataOf (update_transcoding_status DbEnv.reliable db rid "failed"
          (some e) now) rid))).error = some e ∧
    (get_recording_processing_status fs none rid
        (some (metadataOf (update_transcoding_status DbEnv.reliable db rid "failed"
          (some e) now) rid))).can_retry = some true := by
  have hmsg : errTruthy (some e) = true := by
    unfold errTruthy
    simpa using he
  have hme := update_status_metadata_eq db rid "failed" (some e) now r hrec hmsg
  rw [show ((some e).getD "" : String) = e from rfl] at hme
  rw [hme]
  have hA : hasKey (setKey (setKey (setKey (r.recording_metadata.getD [])
      "transcoding_status" (MetaVal.str "failed")) "transcoding_completed_at"
      (MetaVal.str now)) "transcoding_error" (MetaVal.str e)) "hls_path" = false := by
    rw [hasKey_setKey_ne _ _ _ _ (by decide), hasKey_setKey_ne _ _ _ _ (by decide),
      hasKey_setKey_ne _ _ _ _ (by decide)]
    exact hhls
  have hTs : getKey (setKey (setKey (setKey (r.recording_metadata.getD [])
      "transcoding_status" (MetaVal.str "failed")) "transcoding_completed_at"
      (MetaVal.str now)) "transcoding_error" (MetaVal.str e)) "transcoding_status" =
      some (MetaVal.str "failed") := by
    rw [getKey_setKey_ne _ _ _ _ (by decide), getKey_setKey_ne _ _ _ _ (by decide),
      getKey_setKey_self]
  have hTe : getKey (setKey (setKey (setKey (r.recording_metadata.getD [])
      "transcoding_status" (MetaVal.str "failed")) "transcoding_completed_at"
      (MetaVal.str now)) "transcoding_error" (MetaVal.str e)) "transcoding_error" =
      some (MetaVal.str e) := getKey_setKey_self _ _ _
  have hHasTs : hasKey (setKey (setKey (setKey (r.recording_metadata.getD [])
      "transcoding_status" (MetaVal.str "failed")) "transcoding_completed_at"
      (MetaVal.str now)) "transcoding_error" (MetaVal.str e)) "transcoding_status" =
      true := by
    rw [hasKey_setKey_ne _ _ _ _ (by decide), hasKey_setKey_ne _ _ _ _ (by decide)]
    exact hasKey_setKey_self _ _ _
  have hHasTe : hasKey (setKey (setKey (setKey (r.recording_metadata.getD [])
      "transcoding_status" (MetaVal.str "failed")) "transcoding_completed_at"
      (MetaVal.str now)) "transcoding_error" (MetaVal.str e)) "transcoding_error" =
      true := hasKey_setKey_self _ _ _
  have hEmpty : (setKey (setKey (setKey (r.recording_metadata.getD [])
      "transcoding_status" (MetaVal.str "failed")) "transcoding_completed_at"
      (MetaVal.str now)) "transcoding_error" (MetaVal.str e)).isEmpty = false :=
    isEmpty_setKey _ _ _
  have hgs : getStr (setKey (setKey (setKey (r.recording_metadata.getD [])
      "transcoding_status" (MetaVal.str "failed")) "transcoding_completed_at"
      (MetaVal.str now)) "transcoding_error" (MetaVal.str e)) "transcoding_status" =
      "failed" := by
    unfold getStr
    rw [hTs]
  have hge : getStr (setKey (setKey (setKey (r.recording_metadata.getD [])
      "transcoding_status" (MetaVal.str "failed")) "transcoding_completed_at"
      (MetaVal.str now)) "transcoding_error" (MetaVal.str e)) "transcoding_error" =
      e := by
    unfold getStr
    rw [hTe]
  refine ⟨?_, ?_⟩
  · rw [getKey_setKey_ne _ _ _ _ (by decide), getKey_setKey_ne _ _ _ _ (by decide),
      getKey_setKey_ne _ _ _ _ (by decide)]
  · unfold get_recording_processing_status
    dsimp only []
    rw [option_getD_some]
    split
    · next hcond =>
      simp [hA] at hcond
    · split
      · next hcond2 =>
        split
        · next hcond3 =>
          exact ⟨hgs, by rw [hge], rfl⟩
        · next hcond3 =>
          exact absurd (by rw [hgs, hHasTe]; decide) hcond3
      · next hcond2 =>
        have hmt : metaTruthy (some (setKey (setKey (setKey (r.recording_metadata.getD [])
            "transcoding_status" (MetaVal.str "failed")) "transcoding_completed_at"
            (MetaVal.str now)) "transcoding_error" (MetaVal.str e))) = true := by
          unfold metaTruthy
          dsimp only []
          rw [hEmpty]
          decide
        exact absurd (by rw [hmt, hHasTs]; decide) hcond2

/-- A recording with one unrelated metadata key and no `hls_path`. -/
def rec5 : Recording where
  id := 5
  environment := "local"
  file_path := "/recordings/b.mp4"
  s3_path := none
  recording_metadata := some [("stream_id", MetaVal.str "cam-2")]

/-- Witness for the amended C7 at a concrete failed write and poll. -/
theorem c7_witness :
    getKey (metadataOf (update_transcoding_status DbEnv.reliable [rec5] 5 "failed"
        (some "no such key") "T") 5) "can_retry" = none ∧
    (get_recording_processing_status [] none 5
        (some (metadataOf (update_transcoding_status DbEnv.reliable [rec5] 5 "failed"
          (some "no such key") "T") 5))).can_retry = some true := by
  have h := c7_amended_poll_reports_can_retry [rec5] 5 "no such key" "T" rec5 []
    (by decide) (by decide) (by decide)
  refine ⟨?_, h.2.2.2⟩
  rw [h.1]
  decide

end DroneVideo
